import Mathlib

/-!
Verification of a 3-DOF Cartesian pick-and-place robot controller.

The development shallowly embeds the controller's Python modules
(`cartesian_server.py`, `cartesian_client.py`, `drop_zones.py`,
`vision_alignment.py`, `visual_servo.py`, `pick_and_place.py`,
`auto_sort.py`) into Lean.  Coordinates are embedded as rationals (the
source computes over floats with exact decimal literals); the source's
`sqrt(d) <= t` comparisons are embedded as `d <= t^2` and related to the
real square root in the theorems.
-/

namespace CartesianRobot

/-! ## Workspace limits and the supervisor's bounds check
(`cartesian_server.py`) -/

/-- Static per-axis workspace bounds, as carried by the class attributes
`X_MIN .. Z_MAX` of `CartesianServer` / `CartesianClient`. -/
structure WorkspaceLimits where
  x_min : ℚ
  x_max : ℚ
  y_min : ℚ
  y_max : ℚ
  z_min : ℚ
  z_max : ℚ
deriving DecidableEq

/-- `CartesianServer`'s limits: `X_MIN, X_MAX = -1, 8`, `Y_MIN, Y_MAX = -1, 7`,
`Z_MIN, Z_MAX = -3, 5`. -/
def serverLimits : WorkspaceLimits := ⟨-1, 8, -1, 7, -3, 5⟩

/-- `CartesianClient`'s limits: `X_MIN, X_MAX = -1, 6`, `Y_MIN, Y_MAX = -1, 7`,
`Z_MIN, Z_MAX = -3, 5`. -/
def clientLimits : WorkspaceLimits := ⟨-1, 6, -1, 7, -3, 5⟩

/-- `CartesianServer.check_limits`: three chained range checks, each
returning `False` early when its axis is out of range. -/
def check_limits (L : WorkspaceLimits) (x y z : ℚ) : Bool :=
  if ¬ (L.x_min ≤ x ∧ x ≤ L.x_max) then false
  else if ¬ (L.y_min ≤ y ∧ y ≤ L.y_max) then false
  else if ¬ (L.z_min ≤ z ∧ z ≤ L.z_max) then false
  else true

/-- `CartesianServer.sendMove`: if `check_limits` fails, put `"ERROR"` on the
reply queue and return without touching the socket; otherwise send the move
payload once, block for the agent's reply and put it on the queue.
The result is (move payloads written to the transport, strings put on the
reply queue); `agentReply` is the string the blocking `recv` would return. -/
def sendMove (x y z : ℚ) (agentReply : String) :
    List (ℚ × ℚ × ℚ) × List String :=
  if check_limits serverLimits x y z = false then ([], ["ERROR"])
  else ([(x, y, z)], [agentReply])

/-! ## Drop zones (`drop_zones.py`) -/

/-- One drop-zone entry `{'x': _, 'y': _, 'z': _, 'radius': _}`. -/
structure DropZone where
  x : ℚ
  y : ℚ
  z : ℚ
  radius : ℚ
deriving DecidableEq

/-- `DropZoneManager.drop_zones`: blue at `(6, 0, 0)`, green at `(4.0, 0, 0)`,
red at `(0.5, 0, 0)`, each with radius `1.0`. -/
def drop_zones : List (String × DropZone) :=
  [("blue", ⟨6, 0, 0, 1⟩), ("green", ⟨4, 0, 0, 1⟩), ("red", ⟨1/2, 0, 0, 1⟩)]

/-- Squared planar distance.  The source computes
`np.sqrt((x-zx)**2 + (y-zy)**2)`; the square root is taken in the
theorems via `Real.sqrt`. -/
def dist2 (x y cx cy : ℚ) : ℚ := (x - cx) ^ 2 + (y - cy) ^ 2

/-- `DropZoneManager.is_in_drop_zone`: true when some zone satisfies
`distance <= radius + margin`, embedded as
`dist2 <= (radius + margin)^2`. -/
def is_in_drop_zone (x y margin : ℚ) : Bool :=
  drop_zones.any fun cz =>
    decide (dist2 x y cz.2.x cz.2.y ≤ (cz.2.radius + margin) ^ 2)

/-- `DropZoneManager.get_drop_location`: the zone's `(x, y, z)` when the
color is a key of `drop_zones`, and `(None, None, None)` (here `none`)
otherwise. -/
def get_drop_location (color : String) : Option (ℚ × ℚ × ℚ) :=
  match drop_zones.lookup color with
  | some zone => some (zone.x, zone.y, zone.z)
  | none => none

/-! ## Pick-and-place place step (`pick_and_place.py`) -/

/-- A command the supervisor sends through the server to the agent. -/
inductive Cmd where
  | move : ℚ → ℚ → ℚ → Cmd
  | gripperOpen : Cmd
  | gripperClose : Cmd
deriving DecidableEq

/-- `PickAndPlaceController.place_object`: with no drop zone configured for
`color` it returns `False` having sent nothing; otherwise it moves to the
zone at safe height `z = 0`, lowers to `z = 5.5`, opens the gripper, lifts
back to `z = 0` and returns `True`.  The result is
(return value, commands sent). -/
def place_object (color : String) : Bool × List Cmd :=
  match get_drop_location color with
  | none => (false, [])
  | some (dx, dy, _) =>
      (true, [Cmd.move dx dy 0, Cmd.move dx dy (11/2), Cmd.gripperOpen,
              Cmd.move dx dy 0])

/-! ## Search pattern (`vision_alignment.py`) -/

/-- `np.arange(lo, hi, s)` for `s ≠ 0`: the values `lo + k*s` for
`0 ≤ k < ⌈(hi - lo)/s⌉`. -/
def arange (lo hi s : ℚ) : List ℚ :=
  (List.range (Int.toNat ⌈(hi - lo) / s⌉)).map fun k : ℕ => lo + (k : ℚ) * s

/-- A left-to-right sweep row of `ObjectSeeker.search_pattern`:
`for x in np.arange(x_min, x_max + step_size, step_size): if x <= x_max`. -/
def fwd_row (x_min x_max s : ℚ) : List ℚ :=
  (arange x_min (x_max + s) s).filter fun x => decide (x ≤ x_max)

/-- A right-to-left sweep row:
`for x in np.arange(x_max, x_min - step_size, -step_size): if x >= x_min`. -/
def bwd_row (x_min x_max s : ℚ) : List ℚ :=
  (arange x_max (x_min - s) (-s)).filter fun x => decide (x_min ≤ x)

/-- The number of iterations of `while y <= y_max: ... y += step_size`
starting at `y = y_min`, for a positive step: the rows `j` with
`y_min + j*step ≤ y_max` (see `row_count_iff`). -/
def row_count (y_min y_max s : ℚ) : ℕ :=
  if y_min ≤ y_max then (⌊(y_max - y_min) / s⌋).toNat + 1 else 0

/-- The waypoint list built by `ObjectSeeker.search_pattern`: row `j` sits at
`y = y_min + j*step`; `going_right` starts `True` and flips every row, so
even rows sweep left-to-right and odd rows right-to-left. -/
def search_points (x_min x_max y_min y_max s : ℚ) : List (ℚ × ℚ) :=
  (List.range (row_count y_min y_max s)).flatMap fun j =>
    if j % 2 = 0 then
      (fwd_row x_min x_max s).map fun x => (x, y_min + (j : ℚ) * s)
    else (bwd_row x_min x_max s).map fun x => (x, y_min + (j : ℚ) * s)

/-- The largest contour of a frame, abstracted to its area and raw moments
(`none` when `cv2.findContours` finds no contour). -/
structure Blob where
  area : ℚ
  m00 : ℚ
  m10 : ℚ
  m01 : ℚ

/-- The decision tail of `VisionAlignment.detect_color`: no contour, area
below the minimum threshold `100`, or zero `m00` yield `None`; otherwise the
centroid `(int(m10/m00), int(m01/m00))` and the area (moments of an image
mask are nonnegative, so Python's truncating `int` is the floor). -/
def detect_color (largest : Option Blob) : Option (ℤ × ℤ × ℚ) :=
  match largest with
  | none => none
  | some b =>
      if b.area < 100 then none
      else if b.m00 = 0 then none
      else some (⌊b.m10 / b.m00⌋, ⌊b.m01 / b.m00⌋, b.area)

/-- The waypoint loop of `ObjectSeeker.search_pattern`: at each waypoint
move there and run detection (`camera` gives the largest contour the frame
captured at that waypoint would produce); the first waypoint whose
detection is not `None` stops the loop with `(True, x, y)` — the commanded
robot coordinate, not the pixel centroid; exhaustion gives
`(False, None, None)`, embedded as `(false, none)`. -/
def search_run (pts : List (ℚ × ℚ)) (camera : ℚ → ℚ → Option Blob) :
    Bool × Option (ℚ × ℚ) :=
  match pts with
  | [] => (false, none)
  | p :: rest =>
      match detect_color (camera p.1 p.2) with
      | some _ => (true, some p)
      | none => search_run rest camera

/-- `ObjectSeeker.search_pattern` end to end: generate the snake waypoints
and scan them (`z_search` only sets the constant search height). -/
def search_pattern (x_min x_max y_min y_max z_search s : ℚ)
    (camera : ℚ → ℚ → Option Blob) : Bool × Option (ℚ × ℚ) :=
  search_run (search_points x_min x_max y_min y_max s) camera

/-! ## Visual servoing (`visual_servo.py`) -/

namespace VisualServo

/-- `LAMBDA = 0.3`, the control gain. -/
def LAMBDA : ℚ := 3/10

/-- `PIXEL_TO_CM = 0.05`, the pixel-to-physical scaling factor. -/
def PIXEL_TO_CM : ℚ := 1/20

/-- Module-level axis limits of `visual_servo.py`:
`X_MIN, X_MAX = 0, 7.5`, `Y_MIN, Y_MAX = 0, 7`, `Z_MIN, Z_MAX = 0, 6`. -/
def X_MIN : ℚ := 0

def X_MAX : ℚ := 15/2

def Y_MIN : ℚ := 0

def Y_MAX : ℚ := 7

def Z_MIN : ℚ := 0

def Z_MAX : ℚ := 6

/-- An axis-aligned pixel bounding box `(x, y, w, h)` as produced by
`cv2.boundingRect`. -/
structure Bbox where
  x : ℤ
  y : ℤ
  w : ℤ
  h : ℤ
deriving DecidableEq

/-- `calculate_bbox_intersection`: area of the intersection rectangle of two
bounding boxes, `0` when they do not overlap. -/
def calculate_bbox_intersection (bbox1 bbox2 : Bbox) : ℤ :=
  let x_left := max bbox1.x bbox2.x
  let y_top := max bbox1.y bbox2.y
  let x_right := min (bbox1.x + bbox1.w) (bbox2.x + bbox2.w)
  let y_bottom := min (bbox1.y + bbox1.h) (bbox2.y + bbox2.h)
  if x_right < x_left ∨ y_bottom < y_top then 0
  else (x_right - x_left) * (y_bottom - y_top)

/-- The convergence test of `visual_servo_loop`:
`intersection_area >= INTERSECTION_THRESHOLD or error_norm <= DISTANCE_THRESHOLD`,
with `error_norm = sqrt(err2)` embedded as `err2 <= distThreshold^2`.
Thresholds are parameters (they are module-level named constants in the
source). -/
def convergence_check (intersection_area areaThreshold : ℤ)
    (err2 distThreshold : ℚ) : Bool :=
  decide (areaThreshold ≤ intersection_area) || decide (err2 ≤ distThreshold ^ 2)

/-- `clamp_position`: per-axis `max(MIN, min(MAX, value))`. -/
def clamp_position (x y z : ℚ) : ℚ × ℚ × ℚ :=
  (max X_MIN (min X_MAX x), max Y_MIN (min Y_MAX y), max Z_MIN (min Z_MAX z))

/-- One correction step of `visual_servo_loop`: pixel error
`(error_u, error_v) = target_center - grip_center`, physical step
`delta_x = error_u * PIXEL_TO_CM * LAMBDA`,
`delta_y = -error_v * PIXEL_TO_CM * LAMBDA`, and the new absolute target
`(current + delta)` clamped by `clamp_position` (`z` unchanged). -/
def servo_step (current_x current_y current_z : ℚ)
    (grip_cx grip_cy target_cx target_cy : ℤ) : ℚ × ℚ × ℚ :=
  let error_u : ℚ := ((target_cx - grip_cx : ℤ) : ℚ)
  let error_v : ℚ := ((target_cy - grip_cy : ℤ) : ℚ)
  let delta_x := error_u * PIXEL_TO_CM * LAMBDA
  let delta_y := -error_v * PIXEL_TO_CM * LAMBDA
  clamp_position (current_x + delta_x) (current_y + delta_y) current_z

end VisualServo

/-! ## Agent-side move handling (`cartesian_client.py`) -/

/-- A motor motion issued by the agent: the axis and the relative angle in
degrees handed to `on_to_position`. -/
inductive Axis where
  | X
  | Y
  | Z
deriving DecidableEq

/-- The agent's tracked position (`current_x/y/z`, in cm). -/
structure ClientState where
  current_x : ℚ
  current_y : ℚ
  current_z : ℚ
deriving DecidableEq

/-- `deg_per_cm_x = deg_per_cm_y = deg_per_cm_z = 36`. -/
def deg_per_cm : ℚ := 36

/-- `CartesianClient.moveCartesian`: three early-return bounds checks against
the client's limits; when they pass, each axis whose delta exceeds
`0.01` cm is driven by `delta * deg_per_cm` degrees and the tracked
position is set to the target.  Result: (new state, motor motions). -/
def moveCartesian (st : ClientState) (target_x target_y target_z : ℚ) :
    ClientState × List (Axis × ℚ) :=
  if ¬ (clientLimits.x_min ≤ target_x ∧ target_x ≤ clientLimits.x_max) then
    (st, [])
  else if ¬ (clientLimits.y_min ≤ target_y ∧ target_y ≤ clientLimits.y_max) then
    (st, [])
  else if ¬ (clientLimits.z_min ≤ target_z ∧ target_z ≤ clientLimits.z_max) then
    (st, [])
  else
    let delta_x := target_x - st.current_x
    let delta_y := target_y - st.current_y
    let delta_z := target_z - st.current_z
    let motions :=
      (if 1/100 < |delta_x| then [(Axis.X, delta_x * deg_per_cm)] else []) ++
        (if 1/100 < |delta_y| then [(Axis.Y, delta_y * deg_per_cm)] else []) ++
          (if 1/100 < |delta_z| then [(Axis.Z, delta_z * deg_per_cm)] else [])
    (⟨target_x, target_y, target_z⟩, motions)

/-- The `__main__` loop of `cartesian_client.py` on a MOVE payload: parse
`x,y,z`, call `moveCartesian`, then `sendDone()` — the reply string is
`"DONE"` on every path. -/
def client_handle_move (st : ClientState) (target_x target_y target_z : ℚ) :
    ClientState × List (Axis × ℚ) × String :=
  let r := moveCartesian st target_x target_y target_z
  (r.1, r.2, "DONE")

/-! ## Automatic sorting cycle (`auto_sort.py`) -/

/-- The colors the sort cycle tries, in order:
`colors = ['red', 'green', 'blue']`. -/
inductive Color where
  | red
  | green
  | blue
deriving DecidableEq

def colors : List Color := [Color.red, Color.green, Color.blue]

/-- What one cycle's attempt at one color yields: whether
`search_for_pickable_object` found a valid (non-drop-zone) object, and
whether `pick_object` / `place_object` succeeded. -/
structure Outcome where
  found : Bool
  pick_ok : Bool
  place_ok : Bool

/-- The body of one sorting cycle of `auto_sort_all_objects`: fold over the
ordered color list carrying `(objects_found_this_cycle, sorted_this_cycle)`.
A search miss leaves the pair unchanged (`continue`); a found object sets
the flag; a failed pick or place keeps the counter (`continue`); only
found + picked + placed increments it. -/
def run_pass (o : Color → Outcome) : Bool × ℕ :=
  colors.foldl
    (fun acc c =>
      if (o c).found = false then acc
      else if (o c).pick_ok = false then (true, acc.2)
      else if (o c).place_ok = false then (true, acc.2)
      else (true, acc.2 + 1))
    (false, 0)

/-- `objects_found_this_cycle` at the end of a pass. -/
def pass_found (o : Color → Outcome) : Bool := colors.any fun c => (o c).found

/-- The number of objects a pass sorts. -/
def pass_sorted (o : Color → Outcome) : ℕ :=
  colors.countP fun c => (o c).found && (o c).pick_ok && (o c).place_ok

/-- The `while True` loop of `auto_sort_all_objects`, with explicit fuel
(the source loop is unbounded); `o k c` is what cycle `k`'s attempt at
color `c` yields.  `some (stopping cycle, total_sorted)` when the loop
breaks within `fuel` cycles. -/
def auto_sort_loop : ℕ → (ℕ → Color → Outcome) → ℕ → ℕ → Option (ℕ × ℕ)
  | 0, _, _, _ => none
  | fuel + 1, o, cycle, total =>
      let r := run_pass (o cycle)
      if r.1 then auto_sort_loop fuel o (cycle + 1) (total + r.2)
      else some (cycle, total + r.2)

/-- `auto_sort_all_objects`, starting at cycle `0` with nothing sorted. -/
def auto_sort_all_objects (fuel : ℕ) (o : ℕ → Color → Outcome) :
    Option (ℕ × ℕ) :=
  auto_sort_loop fuel o 0 0

/-- A toy outcome table: every color is found, picked and placed in cycle
`0`; nothing is found from cycle `1` on. -/
def sortOracle : ℕ → Color → Outcome :=
  fun j _ => if j = 0 then ⟨true, true, true⟩ else ⟨false, false, false⟩

end CartesianRobot

namespace CartesianRobot

/-! ## Theorems: supervisor bounds check (C1, C2) -/

/-- **C1.** The supervisor's bounds check accepts a position exactly when
every axis coordinate lies inside its configured `[min, max]` interval,
boundary-inclusive on both ends. -/
theorem check_limits_iff (L : WorkspaceLimits) (x y z : ℚ) :
    check_limits L x y z = true ↔
      (L.x_min ≤ x ∧ x ≤ L.x_max) ∧ (L.y_min ≤ y ∧ y ≤ L.y_max) ∧
        (L.z_min ≤ z ∧ z ≤ L.z_max) := by
  unfold check_limits
  by_cases hx : L.x_min ≤ x ∧ x ≤ L.x_max <;>
    by_cases hy : L.y_min ≤ y ∧ y ≤ L.y_max <;>
      by_cases hz : L.z_min ≤ z ∧ z ≤ L.z_max <;>
        simp [hx, hy, hz]

/-- **C2.** An out-of-bounds move makes `sendMove` put `"ERROR"` on the
reply queue and write nothing to the transport; an in-bounds move is
transmitted exactly once and the agent's reply is queued. -/
theorem sendMove_spec (x y z : ℚ) (agentReply : String) :
    (check_limits serverLimits x y z = false →
        sendMove x y z agentReply = ([], ["ERROR"])) ∧
    (check_limits serverLimits x y z = true →
        sendMove x y z agentReply = ([(x, y, z)], [agentReply])) := by
  constructor <;> intro h <;> simp [sendMove, h]

/-- Witness for C2: the move `(0, 8, 0)` violates `Y_MAX = 7` and is
rejected locally; the move `(1, 2, 3)` is in bounds and goes to the
transport once. -/
theorem sendMove_spec_witness :
    sendMove 0 8 0 "DONE" = ([], ["ERROR"]) ∧
      sendMove 1 2 3 "DONE" = ([(1, 2, 3)], ["DONE"]) :=
  ⟨(sendMove_spec 0 8 0 "DONE").1 (by decide),
   (sendMove_spec 1 2 3 "DONE").2 (by decide)⟩

/-! ## Theorems: drop-zone exclusion (C3) -/

/-- **C3.** `is_in_drop_zone` holds exactly when the Euclidean distance from
the point to some configured zone center is at most `radius + margin`
(boundary-inclusive), and fails when every zone center is strictly farther;
with zone `{x: 6, y: 0, radius: 1}` and margin `0.5`, the point
`(6.4, 0)` is excluded while `(4, 3)` is not. -/
theorem is_in_drop_zone_iff (x y margin : ℚ) (hm : 0 ≤ margin) :
    (is_in_drop_zone x y margin = true ↔
      ∃ cz ∈ drop_zones,
        Real.sqrt (((x : ℝ) - cz.2.x) ^ 2 + ((y : ℝ) - cz.2.y) ^ 2) ≤
          cz.2.radius + margin) ∧
    is_in_drop_zone (32/5) 0 (1/2) = true ∧
    is_in_drop_zone 4 3 (1/2) = false := by
  refine ⟨?_, by norm_num [is_in_drop_zone, drop_zones, dist2],
    by norm_num [is_in_drop_zone, drop_zones, dist2]⟩
  rw [is_in_drop_zone, List.any_eq_true]
  constructor
  · rintro ⟨cz, hmem, hd⟩
    refine ⟨cz, hmem, ?_⟩
    have hr : (0 : ℝ) ≤ (cz.2.radius : ℝ) + (margin : ℝ) := by
      have h1 : (0 : ℚ) < cz.2.radius := by
        fin_cases hmem <;> norm_num [drop_zones]
      have h2 : (0 : ℚ) ≤ cz.2.radius + margin := by linarith
      exact_mod_cast h2
    rw [Real.sqrt_le_left hr]
    have hd' : dist2 x y cz.2.x cz.2.y ≤ (cz.2.radius + margin) ^ 2 := by
      simpa using hd
    calc ((x : ℝ) - cz.2.x) ^ 2 + ((y : ℝ) - cz.2.y) ^ 2
        = ((dist2 x y cz.2.x cz.2.y : ℚ) : ℝ) := by
          rw [dist2]; push_cast; ring
      _ ≤ (((cz.2.radius + margin) ^ 2 : ℚ) : ℝ) := by exact_mod_cast hd'
      _ = ((cz.2.radius : ℝ) + margin) ^ 2 := by push_cast; ring
  · rintro ⟨cz, hmem, hd⟩
    refine ⟨cz, hmem, ?_⟩
    have hr : (0 : ℝ) ≤ (cz.2.radius : ℝ) + (margin : ℝ) := by
      have h1 : (0 : ℚ) < cz.2.radius := by
        fin_cases hmem <;> norm_num [drop_zones]
      have h2 : (0 : ℚ) ≤ cz.2.radius + margin := by linarith
      exact_mod_cast h2
    rw [Real.sqrt_le_left hr] at hd
    have : ((dist2 x y cz.2.x cz.2.y : ℚ) : ℝ) ≤
        (((cz.2.radius + margin) ^ 2 : ℚ) : ℝ) := by
      calc ((dist2 x y cz.2.x cz.2.y : ℚ) : ℝ)
          = ((x : ℝ) - cz.2.x) ^ 2 + ((y : ℝ) - cz.2.y) ^ 2 := by
            rw [dist2]; push_cast; ring
        _ ≤ ((cz.2.radius : ℝ) + margin) ^ 2 := hd
        _ = (((cz.2.radius + margin) ^ 2 : ℚ) : ℝ) := by push_cast; ring
    exact decide_eq_true (by exact_mod_cast this)

/-- Witness for C3 at margin `1/2`: discharges `0 ≤ margin` at a concrete
point and evaluates the excluded / non-excluded examples. -/
theorem is_in_drop_zone_iff_witness :
    is_in_drop_zone (32/5) 0 (1/2) = true ∧
      is_in_drop_zone 4 3 (1/2) = false :=
  ⟨(is_in_drop_zone_iff (32/5) 0 (1/2) (by norm_num)).2.1,
   (is_in_drop_zone_iff 4 3 (1/2) (by norm_num)).2.2⟩

/-! ## Theorems: missing drop zone (C10) -/

/-- **C10.** For a color with no configured drop zone, `get_drop_location`
returns `(None, None, None)` and `place_object` returns `False` without
sending any move or gripper command. -/
theorem place_object_unknown_color (color : String)
    (h : drop_zones.lookup color = none) :
    get_drop_location color = none ∧ place_object color = (false, []) := by
  refine ⟨?_, ?_⟩ <;> simp [place_object, get_drop_location, h]

/-- Witness for C10: `"yellow"` has no drop zone. -/
theorem place_object_unknown_color_witness :
    get_drop_location "yellow" = none ∧
      place_object "yellow" = (false, []) :=
  place_object_unknown_color "yellow" (by decide)

/-! ## Theorems: visual-servo convergence gate (C6) -/

/-- **C6.** The convergence test passes exactly when the bbox intersection
area reaches the area threshold **or** the Euclidean pixel distance between
the centers is at most the distance threshold; for reference bbox
`(0,0,10,10)` and target bbox `(5,5,10,10)` the intersection area is
exactly `25`, and with thresholds `30` / `8` the test converges through the
distance gate alone (center distance `√50 ≈ 7.07 ≤ 8` while `25 < 30`). -/
theorem convergence_or_gate :
    (∀ (inter A : ℤ) (e2 D : ℚ), 0 ≤ D →
      (VisualServo.convergence_check inter A e2 D = true ↔
        A ≤ inter ∨ Real.sqrt (e2 : ℝ) ≤ (D : ℝ))) ∧
    VisualServo.calculate_bbox_intersection ⟨0, 0, 10, 10⟩ ⟨5, 5, 10, 10⟩ = 25 ∧
    ¬ (30 : ℤ) ≤
        VisualServo.calculate_bbox_intersection ⟨0, 0, 10, 10⟩ ⟨5, 5, 10, 10⟩ ∧
    Real.sqrt ((10 - 5 : ℤ) ^ 2 + (10 - 5 : ℤ) ^ 2 : ℝ) ≤ 8 ∧
    VisualServo.convergence_check
      (VisualServo.calculate_bbox_intersection ⟨0, 0, 10, 10⟩ ⟨5, 5, 10, 10⟩)
      30 ((10 - 5 : ℤ) ^ 2 + (10 - 5 : ℤ) ^ 2 : ℚ) 8 = true := by
  refine ⟨?_, ?_, ?_, ?_, ?_⟩
  · intro inter A e2 D hD
    have hD' : (0 : ℝ) ≤ (D : ℝ) := by exact_mod_cast hD
    rw [VisualServo.convergence_check, Bool.or_eq_true, decide_eq_true_eq,
      decide_eq_true_eq, Real.sqrt_le_left hD']
    constructor
    · rintro (h | h)
      · exact Or.inl h
      · exact Or.inr (by exact_mod_cast h)
    · rintro (h | h)
      · exact Or.inl h
      · exact Or.inr (by exact_mod_cast h)
  · norm_num [VisualServo.calculate_bbox_intersection]
  · norm_num [VisualServo.calculate_bbox_intersection]
  · rw [Real.sqrt_le_left (by norm_num : (0 : ℝ) ≤ 8)]; norm_num
  · norm_num [VisualServo.calculate_bbox_intersection,
      VisualServo.convergence_check]

/-- Witness for C6: the iff instantiated at intersection `25`, thresholds
`30` and `8`, squared center distance `50`. -/
theorem convergence_or_gate_witness :
    VisualServo.convergence_check 25 30 50 8 = true ↔
      (30 : ℤ) ≤ 25 ∨ Real.sqrt ((50 : ℚ) : ℝ) ≤ ((8 : ℚ) : ℝ) :=
  convergence_or_gate.1 25 30 50 8 (by norm_num)

/-! ## Theorems: servo correction step (C7) -/

/-- **C7.** A servo iteration turns the pixel error
`(ex, ey) = target_center - grip_center` into the physical step
`(dx, dy) = (ex * 0.05 * 0.3, -ey * 0.05 * 0.3)` (vertical sign inverted),
clamps the corrected absolute target per axis to
`max(axis_min, min(axis_max, value))`, and so every issued move lies inside
the configured axis limits; a raw target beyond a limit is clamped to the
boundary rather than rejected (e.g. from `x = 7` with pixel error `100`,
the raw target `8.5` is issued as `X_MAX = 7.5`). -/
theorem servo_step_clamped :
    (∀ cx cy cz : ℚ, ∀ gx gy tx ty : ℤ,
      VisualServo.servo_step cx cy cz gx gy tx ty =
        VisualServo.clamp_position
          (cx + ((tx - gx : ℤ) : ℚ) * (1/20) * (3/10))
          (cy + -(((ty - gy : ℤ) : ℚ)) * (1/20) * (3/10)) cz) ∧
    (∀ x y z : ℚ,
      VisualServo.X_MIN ≤ (VisualServo.clamp_position x y z).1 ∧
      (VisualServo.clamp_position x y z).1 ≤ VisualServo.X_MAX ∧
      VisualServo.Y_MIN ≤ (VisualServo.clamp_position x y z).2.1 ∧
      (VisualServo.clamp_position x y z).2.1 ≤ VisualServo.Y_MAX ∧
      VisualServo.Z_MIN ≤ (VisualServo.clamp_position x y z).2.2 ∧
      (VisualServo.clamp_position x y z).2.2 ≤ VisualServo.Z_MAX) ∧
    VisualServo.servo_step 7 0 0 0 0 100 0 = (15/2, 0, 0) := by
  refine ⟨?_, ?_, ?_⟩
  · intro cx cy cz gx gy tx ty
    simp only [VisualServo.servo_step, VisualServo.PIXEL_TO_CM,
      VisualServo.LAMBDA]
  · intro x y z
    refine ⟨le_max_left _ _, ?_, le_max_left _ _, ?_, le_max_left _ _, ?_⟩ <;>
      exact max_le (by norm_num [VisualServo.X_MIN, VisualServo.X_MAX,
        VisualServo.Y_MIN, VisualServo.Y_MAX, VisualServo.Z_MIN,
        VisualServo.Z_MAX]) (min_le_left _ _)
  · norm_num [VisualServo.servo_step, VisualServo.clamp_position,
      VisualServo.PIXEL_TO_CM, VisualServo.LAMBDA, VisualServo.X_MIN,
      VisualServo.X_MAX, VisualServo.Y_MIN, VisualServo.Y_MAX,
      VisualServo.Z_MIN, VisualServo.Z_MAX]

/-! ## Theorems: agent-side MOVE handling (C8) -/

/-- **C8 counterexample.** The MOVE payload `(10, 0, 0)` violates the
agent's `X` bounds (`10 > X_MAX = 6`), yet the agent's main loop replies
`"DONE"`, not `"ERROR"` — the claimed `ERROR` reply never happens. -/
theorem client_move_reply_counterexample :
    client_handle_move ⟨0, 0, 0⟩ 10 0 0 = (⟨0, 0, 0⟩, [], "DONE") ∧
      ¬ ((10 : ℚ) ≤ clientLimits.x_max) ∧ ("DONE" : String) ≠ "ERROR" := by
  refine ⟨?_, by norm_num [clientLimits], by decide⟩
  norm_num [client_handle_move, moveCartesian, clientLimits]

/-- **C8 (amended).** The agent replies `DONE` to every MOVE payload,
in bounds or not; a bounds-violating move is not executed: no motor motion
is issued and the tracked position is unchanged. -/
theorem client_move_spec (st : ClientState) (tx ty tz : ℚ) :
    (client_handle_move st tx ty tz).2.2 = "DONE" ∧
    (¬ ((clientLimits.x_min ≤ tx ∧ tx ≤ clientLimits.x_max) ∧
        (clientLimits.y_min ≤ ty ∧ ty ≤ clientLimits.y_max) ∧
        (clientLimits.z_min ≤ tz ∧ tz ≤ clientLimits.z_max)) →
      client_handle_move st tx ty tz = (st, [], "DONE")) := by
  constructor
  · rfl
  · intro h
    by_cases h1 : clientLimits.x_min ≤ tx ∧ tx ≤ clientLimits.x_max
    · by_cases h2 : clientLimits.y_min ≤ ty ∧ ty ≤ clientLimits.y_max
      · by_cases h3 : clientLimits.z_min ≤ tz ∧ tz ≤ clientLimits.z_max
        · exact absurd ⟨h1, h2, h3⟩ h
        · simp [client_handle_move, moveCartesian, h1, h2, h3]
      · simp [client_handle_move, moveCartesian, h1, h2]
    · simp [client_handle_move, moveCartesian, h1]

/-- Witness for C8 (amended): the out-of-bounds MOVE `(10, 0, 0)` leaves the
agent at the origin, issues no motion, and is acknowledged `"DONE"`. -/
theorem client_move_spec_witness :
    client_handle_move ⟨0, 0, 0⟩ 10 0 0 = (⟨0, 0, 0⟩, [], "DONE") :=
  (client_move_spec ⟨0, 0, 0⟩ 10 0 0).2 (by norm_num [clientLimits])

/-! ## Search-pattern lemmas (C4, C5) -/

/-- `np.arange` over an exact whole number of steps. -/
lemma arange_exact (lo s : ℚ) (hs : 0 < s) (m : ℕ) :
    arange lo (lo + m * s) s = (List.range m).map fun k : ℕ => lo + (k : ℚ) * s := by
  unfold arange
  have h1 : (lo + m * s - lo) / s = (m : ℚ) := by
    field_simp
  rw [h1, Int.ceil_natCast, Int.toNat_natCast]

/-- When the step divides the X extent, a forward row is exactly the
anchored grid `x_min, x_min + s, …, x_max`. -/
lemma fwd_row_eq (x0 s : ℚ) (hs : 0 < s) (n : ℕ) :
    fwd_row x0 (x0 + n * s) s =
      (List.range (n + 1)).map fun k : ℕ => x0 + (k : ℚ) * s := by
  unfold fwd_row
  have h2 : x0 + (n : ℚ) * s + s = x0 + ((n + 1 : ℕ) : ℚ) * s := by
    push_cast; ring
  rw [h2, arange_exact x0 s hs (n + 1), List.filter_eq_self]
  intro a ha
  obtain ⟨k, hk, rfl⟩ := List.mem_map.mp ha
  have hk' : (k : ℚ) ≤ (n : ℚ) := by
    exact_mod_cast Nat.lt_succ_iff.mp (List.mem_range.mp hk)
  exact decide_eq_true (by nlinarith)

lemma arange_back (x0 s : ℚ) (hs : 0 < s) (n : ℕ) :
    arange (x0 + n * s) (x0 - s) (-s) =
      (List.range (n + 1)).map fun k : ℕ => x0 + (n : ℚ) * s - (k : ℚ) * s := by
  unfold arange
  have h1 : (x0 - s - (x0 + n * s)) / (-s) = ((n + 1 : ℕ) : ℚ) := by
    push_cast
    rw [div_eq_iff (by linarith : (-s) ≠ 0)]
    ring
  rw [h1, Int.ceil_natCast, Int.toNat_natCast]
  apply List.map_congr_left
  intro k _
  ring

/-- When the step divides the X extent, a backward row is exactly the
reversed forward row. -/
lemma bwd_row_eq (x0 s : ℚ) (hs : 0 < s) (n : ℕ) :
    bwd_row x0 (x0 + n * s) s =
      ((List.range (n + 1)).map fun k : ℕ => x0 + (k : ℚ) * s).reverse := by
  unfold bwd_row
  rw [arange_back x0 s hs n, List.filter_eq_self.mpr]
  · apply List.ext_getElem
    · simp
    · intro i h1 h2
      have hi : i ≤ n := by
        simp only [List.length_map, List.length_range] at h1
        omega
      rw [List.getElem_reverse]
      simp only [List.getElem_map, List.getElem_range, List.length_map,
        List.length_range]
      have hcast : ((n + 1 - 1 - i : ℕ) : ℚ) = (n : ℚ) - (i : ℚ) := by
        have he : n + 1 - 1 - i = n - i := by omega
        rw [he, Nat.cast_sub hi]
      rw [hcast]
      ring
  · intro a ha
    obtain ⟨k, hk, rfl⟩ := List.mem_map.mp ha
    have hk' : (k : ℚ) ≤ (n : ℚ) := by
      exact_mod_cast Nat.lt_succ_iff.mp (List.mem_range.mp hk)
    exact decide_eq_true (by nlinarith)

/-- `row_count` counts exactly the iterations of the source's
`while y <= y_max` loop: row `j` exists iff `y_min + j*s ≤ y_max`. -/
lemma row_count_iff (y0 y1 s : ℚ) (hs : 0 < s) (j : ℕ) :
    j < row_count y0 y1 s ↔ y0 + j * s ≤ y1 := by
  unfold row_count
  by_cases h : y0 ≤ y1
  · rw [if_pos h, Nat.lt_succ_iff]
    have h0 : (0 : ℤ) ≤ ⌊(y1 - y0) / s⌋ :=
      Int.floor_nonneg.mpr (div_nonneg (by linarith) hs.le)
    constructor
    · intro hj
      have hj' : (j : ℤ) ≤ ⌊(y1 - y0) / s⌋ := by omega
      have hq : (j : ℚ) ≤ (y1 - y0) / s := by
        exact_mod_cast Int.le_floor.mp hj'
      have := (le_div_iff₀ hs).mp hq
      linarith
    · intro hj
      have h1 : (j : ℚ) * s ≤ y1 - y0 := by linarith
      have h2 : (j : ℚ) ≤ (y1 - y0) / s := (le_div_iff₀ hs).mpr h1
      have h3 : (j : ℤ) ≤ ⌊(y1 - y0) / s⌋ :=
        Int.le_floor.mpr (by exact_mod_cast h2)
      omega
  · rw [if_neg h]
    push_neg at h
    constructor
    · omega
    · intro hj
      exfalso
      have hpos : (0 : ℚ) ≤ (j : ℚ) * s := by positivity
      linarith

lemma grid_injective (x0 s : ℚ) (hs : 0 < s) : Function.Injective
    (fun k : ℕ => x0 + (k : ℚ) * s) := by
  intro a b hab
  simp only [add_right_inj] at hab
  have hq : (a : ℚ) = (b : ℚ) := mul_right_cancel₀ hs.ne' hab
  exact_mod_cast hq

lemma count_one_of_nodup {α : Type} [BEq α] [LawfulBEq α] {l : List α} {a : α}
    (h1 : l.Nodup) (h2 : a ∈ l) : l.count a = 1 := by
  induction l with
  | nil => simp at h2
  | cons b t ih =>
    rcases List.mem_cons.mp h2 with rfl | hmem
    · rw [List.count_cons_self]
      have hnot : a ∉ t := (List.nodup_cons.mp h1).1
      rw [List.count_eq_zero.mpr hnot]
    · rw [List.count_cons_of_ne, ih (List.nodup_cons.mp h1).2 hmem]
      rintro rfl
      exact (List.nodup_cons.mp h1).1 hmem

lemma row_count_eval : row_count 0 3 3 = 2 := by
  have e1 : ((3 : ℚ) - 0) / 3 = ((1 : ℤ) : ℚ) := by norm_num
  rw [row_count, if_pos (by norm_num : (0:ℚ) ≤ 3), e1, Int.floor_intCast]
  rfl

/-! ## Theorems: search-pattern coverage (C4) -/

/-- **C4 counterexample.** For the region `[0,5]×[0,3]` with step `3`
(a positive step whose grid point `(0 + 1*3, 0 + 1*3) = (3,3)` lies in the
region), the generated waypoint sequence never visits `(3,3)`: the reverse
row anchors at `x_max = 5` and visits `5, 2` instead of the grid `0, 3`. -/
theorem search_pattern_gap :
    (0 : ℚ) < 3 ∧ (0 : ℚ) + 1 * 3 ≤ 5 ∧ (0 : ℚ) + 1 * 3 ≤ 3 ∧
      ((0 : ℚ) + 1 * 3, (0 : ℚ) + 1 * 3) ∉ search_points 0 5 0 3 3 := by
  have hfwd : fwd_row 0 5 3 = [0, 3] := by
    have e1 : ((5 : ℚ) + 3 - 0) / 3 = 8 / 3 := by norm_num
    have e2 : (⌈(8 : ℚ) / 3⌉ : ℤ) = 3 := by
      rw [Int.ceil_eq_iff]
      norm_num
    rw [fwd_row, arange, e1, e2]
    norm_num [List.range_succ, List.filter]
  have hbwd : bwd_row 0 5 3 = [5, 2] := by
    have e1 : ((0 : ℚ) - 3 - 5) / (-3) = 8 / 3 := by norm_num
    have e2 : (⌈(8 : ℚ) / 3⌉ : ℤ) = 3 := by
      rw [Int.ceil_eq_iff]
      norm_num
    rw [bwd_row, arange, e1, e2]
    norm_num [List.range_succ, List.filter]
  have hpts : search_points 0 5 0 3 3 = [(0, 0), (3, 0), (5, 3), (2, 3)] := by
    rw [search_points, row_count_eval]
    rw [show List.range 2 = [0, 1] from rfl]
    simp [List.flatMap_cons, hfwd, hbwd]
  refine ⟨by norm_num, by norm_num, by norm_num, ?_⟩
  rw [hpts]
  norm_num [Prod.ext_iff]

/-- **C4 (amended).** When the step divides the X extent
(`x_max = x_min + n*step` for some `n : ℕ`, `step > 0`), the waypoint
sequence visits every grid point of the region exactly once, every
waypoint is a grid point, even rows are the ascending forward sweep and odd
rows are its exact reverse (so no row repeats its predecessor's
direction), and the forward sweep is strictly increasing. -/
theorem search_pattern_covers (x0 x1 y0 y1 s : ℚ) (n : ℕ) (hs : 0 < s)
    (hx1 : x1 = x0 + n * s) :
    (∀ i j : ℕ, x0 + i * s ≤ x1 → y0 + j * s ≤ y1 →
      (search_points x0 x1 y0 y1 s).count (x0 + i * s, y0 + j * s) = 1) ∧
    (∀ p ∈ search_points x0 x1 y0 y1 s, ∃ i j : ℕ,
      p = (x0 + i * s, y0 + j * s) ∧ x0 + i * s ≤ x1 ∧ y0 + j * s ≤ y1) ∧
    search_points x0 x1 y0 y1 s =
      ((List.range (row_count y0 y1 s)).flatMap fun j =>
        if j % 2 = 0 then
          (fwd_row x0 x1 s).map fun x => (x, y0 + (j : ℚ) * s)
        else ((fwd_row x0 x1 s).map fun x => (x, y0 + (j : ℚ) * s)).reverse) ∧
    bwd_row x0 x1 s = (fwd_row x0 x1 s).reverse ∧
    (fwd_row x0 x1 s).Pairwise (· < ·) := by
  subst hx1
  have hf := fwd_row_eq x0 s hs n
  have hb := bwd_row_eq x0 s hs n
  have hbf : bwd_row x0 (x0 + n * s) s = (fwd_row x0 (x0 + n * s) s).reverse := by
    rw [hf, hb]
  have hmem_fwd : ∀ x : ℚ, x ∈ fwd_row x0 (x0 + n * s) s ↔
      ∃ k : ℕ, k ≤ n ∧ x = x0 + k * s := by
    intro x
    rw [hf, List.mem_map]
    constructor
    · rintro ⟨k, hk, rfl⟩
      exact ⟨k, Nat.lt_succ_iff.mp (List.mem_range.mp hk), rfl⟩
    · rintro ⟨k, hk, rfl⟩
      exact ⟨k, List.mem_range.mpr (Nat.lt_succ_iff.mpr hk), rfl⟩
  have hmem_bwd : ∀ x : ℚ, x ∈ bwd_row x0 (x0 + n * s) s ↔
      ∃ k : ℕ, k ≤ n ∧ x = x0 + k * s := by
    intro x
    rw [hbf, List.mem_reverse]
    exact hmem_fwd x
  have hnodup_fwd : (fwd_row x0 (x0 + n * s) s).Nodup := by
    rw [hf]
    exact (List.nodup_range (n + 1)).map (grid_injective x0 s hs)
  have hrow_snd : ∀ j : ℕ, ∀ p : ℚ × ℚ,
      (p ∈ (if j % 2 = 0 then
          (fwd_row x0 (x0 + n * s) s).map fun x => (x, y0 + (j : ℚ) * s)
        else (bwd_row x0 (x0 + n * s) s).map fun x => (x, y0 + (j : ℚ) * s))) →
      p.2 = y0 + (j : ℚ) * s := by
    intro j p hp
    by_cases hj : j % 2 = 0 <;> simp only [hj, List.mem_map,
      ite_true, ite_false] at hp <;>
      obtain ⟨x, _, rfl⟩ := hp <;> rfl
  have hnodup : (search_points x0 (x0 + n * s) y0 y1 s).Nodup := by
    rw [search_points]
    apply List.nodup_flatMap.mpr
    constructor
    · intro j _
      have hpair : Function.Injective fun x : ℚ => (x, y0 + (j : ℚ) * s) := by
        intro a b hab
        simpa using congrArg Prod.fst hab
      by_cases hj : j % 2 = 0
      · simp only [hj, ite_true]
        exact hnodup_fwd.map hpair
      · simp only [hj, ite_false]
        rw [hbf]
        exact (List.nodup_reverse.mpr hnodup_fwd).map hpair
    · apply (List.pairwise_lt_range _).imp
      intro a b hab
      intro p hpa hpb
      have h1 := hrow_snd a p hpa
      have h2 := hrow_snd b p hpb
      rw [h1] at h2
      have h3 : (a : ℚ) * s = (b : ℚ) * s := by linarith
      have h4 : (a : ℚ) = (b : ℚ) := mul_right_cancel₀ hs.ne' h3
      have h5 : a = b := by exact_mod_cast h4
      omega
  have hmem : ∀ p : ℚ × ℚ, p ∈ search_points x0 (x0 + n * s) y0 y1 s ↔
      ∃ i j : ℕ, p = (x0 + i * s, y0 + j * s) ∧ i ≤ n ∧
        j < row_count y0 y1 s := by
    intro p
    rw [search_points, List.mem_flatMap]
    constructor
    · rintro ⟨j, hj, hin⟩
      have hj' := List.mem_range.mp hj
      by_cases hpar : j % 2 = 0
      · simp only [hpar, ite_true, List.mem_map] at hin
        obtain ⟨x, hx, rfl⟩ := hin
        obtain ⟨k, hk, rfl⟩ := (hmem_fwd x).mp hx
        exact ⟨k, j, rfl, hk, hj'⟩
      · simp only [hpar, ite_false, List.mem_map] at hin
        obtain ⟨x, hx, rfl⟩ := hin
        obtain ⟨k, hk, rfl⟩ := (hmem_bwd x).mp hx
        exact ⟨k, j, rfl, hk, hj'⟩
    · rintro ⟨i, j, rfl, hi, hj⟩
      refine ⟨j, List.mem_range.mpr hj, ?_⟩
      by_cases hpar : j % 2 = 0
      · simp only [hpar, ite_true, List.mem_map]
        exact ⟨x0 + i * s, (hmem_fwd _).mpr ⟨i, hi, rfl⟩, rfl⟩
      · simp only [hpar, ite_false, List.mem_map]
        exact ⟨x0 + i * s, (hmem_bwd _).mpr ⟨i, hi, rfl⟩, rfl⟩
  refine ⟨?_, ?_, ?_, hbf, ?_⟩
  · intro i j hxi hyj
    have hi : i ≤ n := by
      have h1 : (i : ℚ) * s ≤ (n : ℚ) * s := by linarith
      have h2 : (i : ℚ) ≤ (n : ℚ) := le_of_mul_le_mul_right h1 hs
      exact_mod_cast h2
    have hj : j < row_count y0 y1 s := (row_count_iff y0 y1 s hs j).mpr hyj
    exact count_one_of_nodup hnodup ((hmem _).mpr ⟨i, j, rfl, hi, hj⟩)
  · intro p hp
    obtain ⟨i, j, rfl, hi, hj⟩ := (hmem p).mp hp
    refine ⟨i, j, rfl, ?_, (row_count_iff y0 y1 s hs j).mp hj⟩
    have hic : (i : ℚ) ≤ (n : ℚ) := by exact_mod_cast hi
    nlinarith
  · rw [search_points]
    congr 1
    funext j
    by_cases hj : j % 2 = 0
    · simp [hj]
    · simp only [hj, ite_false]
      rw [hbf, List.map_reverse]
  · rw [hf]
    rw [List.pairwise_map]
    apply (List.pairwise_lt_range _).imp
    intro a b hab
    have hq : (a : ℚ) < (b : ℚ) := by exact_mod_cast hab
    nlinarith

/-- Witness for C4 (amended): region `[0,6]×[0,3]` with step `3`
(`6 = 0 + 2*3`); the grid point `(3, 0)` is visited exactly once. -/
theorem search_pattern_covers_witness :
    (search_points 0 6 0 3 3).count ((3 : ℚ), (0 : ℚ)) = 1 := by
  have h := (search_pattern_covers 0 6 0 3 3 2 (by norm_num)
    (by norm_num)).1 1 0 (by norm_num) (by norm_num)
  norm_num at h
  exact h

/-! ## Theorems: search first-detection result (C5) -/

lemma search_run_eq (pts : List (ℚ × ℚ)) (camera : ℚ → ℚ → Option Blob) :
    search_run pts camera =
      match pts.find? (fun q => (detect_color (camera q.1 q.2)).isSome) with
      | some p => (true, some p)
      | none => (false, none) := by
  induction pts with
  | nil => rfl
  | cons q rest ih =>
    rw [search_run, List.find?_cons]
    cases hd : detect_color (camera q.1 q.2) with
    | none => simpa [hd] using ih
    | some r => simp [hd]

lemma search_run_some (pts : List (ℚ × ℚ)) (camera : ℚ → ℚ → Option Blob)
    (p : ℚ × ℚ) :
    search_run pts camera = (true, some p) ↔
      pts.find? (fun q => (detect_color (camera q.1 q.2)).isSome) = some p := by
  rw [search_run_eq]
  cases h : pts.find? (fun q => (detect_color (camera q.1 q.2)).isSome) <;> simp

lemma search_run_no_hit (pts : List (ℚ × ℚ)) (camera : ℚ → ℚ → Option Blob) :
    search_run pts camera = (false, none) ↔
      pts.find? (fun q => (detect_color (camera q.1 q.2)).isSome) = none := by
  rw [search_run_eq]
  cases h : pts.find? (fun q => (detect_color (camera q.1 q.2)).isSome) <;> simp

/-- **C5.** The search returns `Found` with the commanded robot coordinates
of the first waypoint whose detection clears the minimum-area threshold
(the waypoint coordinate, not the pixel centroid), `NotFound` when no
waypoint yields a detection; a frame's largest contour is detected exactly
when its area is at least `100` and its `m00` moment is nonzero; and for
region `[0,3]×[0,3]` with step `3` and a detection available only at
waypoint `(3,3)`, the search returns `Found(3,3)`. -/
theorem search_pattern_first_detection :
    (∀ (pts : List (ℚ × ℚ)) (camera : ℚ → ℚ → Option Blob) (p : ℚ × ℚ),
      search_run pts camera = (true, some p) ↔
        ((detect_color (camera p.1 p.2)).isSome = true ∧
          ∃ i : ℕ, ∃ hi : i < pts.length, pts[i] = p ∧
            ∀ j : ℕ, ∀ hj : j < i,
              detect_color (camera pts[j].1 pts[j].2) = none)) ∧
    (∀ (pts : List (ℚ × ℚ)) (camera : ℚ → ℚ → Option Blob),
      search_run pts camera = (false, none) ↔
        ∀ p ∈ pts, detect_color (camera p.1 p.2) = none) ∧
    (∀ b : Blob, (detect_color (some b)).isSome = true ↔
      (100 ≤ b.area ∧ b.m00 ≠ 0)) ∧
    search_pattern 0 3 0 3 0 3
      (fun x y => if x = 3 ∧ y = 3 then some ⟨200, 1, 3, 3⟩ else none) =
      (true, some (3, 3)) := by
  refine ⟨?_, ?_, ?_, ?_⟩
  · intro pts camera p
    have ho : ∀ o : Option (ℤ × ℤ × ℚ), o.isSome = false ↔ o = none := by
      intro o; cases o <;> simp
    rw [search_run_some, List.find?_eq_some_iff_getElem]
    simp only [Bool.not_eq_eq_eq_not, Bool.not_true, ho]
  · intro pts camera
    rw [search_run_no_hit, List.find?_eq_none]
    simp
  · intro b
    rw [detect_color]
    by_cases h1 : b.area < 100
    · simp only [h1, ite_true]
      constructor
      · intro h
        simp at h
      · rintro ⟨h, -⟩
        linarith
    · by_cases h2 : b.m00 = 0
      · simp only [h1, h2, ite_true, ite_false]
        constructor
        · intro h
          simp at h
        · rintro ⟨-, h⟩
          exact absurd h2 (by simpa using h)
      · simp only [h1, h2, ite_false, Option.isSome_some, true_iff]
        exact ⟨by linarith [not_lt.mp h1], h2⟩
  · have hfwd : fwd_row 0 3 3 = [0, 3] := by
      have e1 : ((3 : ℚ) + 3 - 0) / 3 = ((2 : ℤ) : ℚ) := by norm_num
      rw [fwd_row, arange, e1, Int.ceil_intCast]
      norm_num [List.range_succ, List.filter]
    have hbwd : bwd_row 0 3 3 = [3, 0] := by
      have e1 : ((0 : ℚ) - 3 - 3) / (-3) = ((2 : ℤ) : ℚ) := by norm_num
      rw [bwd_row, arange, e1, Int.ceil_intCast]
      norm_num [List.range_succ, List.filter]
    have hpts : search_points 0 3 0 3 3 = [(0, 0), (3, 0), (3, 3), (0, 3)] := by
      rw [search_points, row_count_eval]
      rw [show List.range 2 = [0, 1] from rfl]
      simp [List.flatMap_cons, hfwd, hbwd]
    rw [search_pattern, hpts]
    norm_num [search_run, detect_color]



/-! ## Sort-cycle lemmas and theorems (C9) -/

/-- The pass fold in closed form: the flag is an `any` over search hits,
the counter a `countP` over full successes — each color is processed
independently of the others' failures. -/
lemma run_pass_foldl (o : Color → Outcome) (l : List Color) :
    ∀ (b : Bool) (t : ℕ),
      l.foldl
        (fun acc c =>
          if (o c).found = false then acc
          else if (o c).pick_ok = false then (true, acc.2)
          else if (o c).place_ok = false then (true, acc.2)
          else (true, acc.2 + 1))
        (b, t) =
      (b || l.any (fun c => (o c).found),
        t + l.countP (fun c => (o c).found && (o c).pick_ok && (o c).place_ok)) := by
  induction l with
  | nil => intro b t; simp
  | cons c rest ih =>
    intro b t
    rw [List.foldl_cons, List.any_cons, List.countP_cons]
    by_cases h1 : (o c).found = false
    · simp only [h1, ite_true]
      rw [ih b t]
      simp [h1]
    · rw [Bool.not_eq_false] at h1
      by_cases h2 : (o c).pick_ok = false
      · simp only [h1, h2, Bool.true_eq_false, ite_false, ite_true]
        rw [ih true t]
        simp [h1, h2]
      · rw [Bool.not_eq_false] at h2
        by_cases h3 : (o c).place_ok = false
        · simp only [h1, h2, h3, Bool.true_eq_false, ite_false, ite_true]
          rw [ih true t]
          simp [h1, h2, h3]
        · rw [Bool.not_eq_false] at h3
          simp only [h1, h2, h3, Bool.true_eq_false, ite_false]
          rw [ih true (t + 1)]
          simp [h1, h2, h3]
          omega

lemma run_pass_eq (o : Color → Outcome) :
    run_pass o = (pass_found o, pass_sorted o) := by
  rw [run_pass, run_pass_foldl o colors false 0]
  simp [pass_found, pass_sorted]

/-- The fueled loop stops at the first all-miss pass, accumulating each
earlier pass's sorted count. -/
lemma auto_sort_loop_spec (o : ℕ → Color → Outcome) :
    ∀ (k fuel c t : ℕ), (∀ j, j < k → pass_found (o (c + j)) = true) →
      pass_found (o (c + k)) = false → k < fuel →
      auto_sort_loop fuel o c t =
        some (c + k, t + ∑ j ∈ Finset.range (k + 1), pass_sorted (o (c + j))) := by
  intro k
  induction k with
  | zero =>
    intro fuel c t h1 h2 hf
    obtain ⟨f, rfl⟩ : ∃ f, fuel = f + 1 := ⟨fuel - 1, by omega⟩
    rw [auto_sort_loop]
    simp only [run_pass_eq]
    rw [if_neg (by simpa using h2)]
    simp [Finset.sum_range_one]
  | succ k ih =>
    intro fuel c t h1 h2 hf
    obtain ⟨f, rfl⟩ : ∃ f, fuel = f + 1 := ⟨fuel - 1, by omega⟩
    rw [auto_sort_loop]
    simp only [run_pass_eq]
    rw [if_pos (by simpa using h1 0 (by omega))]
    have hrec := ih f (c + 1) (t + pass_sorted (o c)) ?_ ?_ ?_
    · rw [show c + 1 + k = c + (k + 1) from by omega] at hrec
      rw [hrec]
      congr 1
      congr 1
      rw [Finset.sum_range_succ' (fun j => pass_sorted (o (c + j))) (k + 1)]
      have hsh : ∀ j, c + 1 + j = c + (j + 1) := fun j => by omega
      rw [Finset.sum_congr rfl fun j _ => by rw [hsh j]]
      simp only [Nat.add_zero]
      omega
    · intro j hj
      have := h1 (j + 1) (by omega)
      rwa [show c + (j + 1) = c + 1 + j from by omega] at this
    · rwa [show c + 1 + k = c + (k + 1) from by omega]
    · omega

/-- **C9.** The sort cycle terminates exactly at the first full pass over
the ordered color list in which no color yields a valid pickable object,
returning the accumulated total; and within a pass every color is handled
independently — one color's search miss, pick failure or place failure
only skips that color (the pass flag is an `any` over search hits and the
sorted counter a `countP` over full successes across the whole list), so
the run is not aborted. -/
theorem auto_sort_terminates (o : ℕ → Color → Outcome) (fuel k : ℕ)
    (h1 : ∀ j, j < k → pass_found (o j) = true)
    (h2 : pass_found (o k) = false) (hf : k < fuel) :
    auto_sort_all_objects fuel o =
      some (k, ∑ j ∈ Finset.range (k + 1), pass_sorted (o j)) ∧
    (∀ p : Color → Outcome, run_pass p =
      (colors.any fun c => (p c).found,
        colors.countP fun c => (p c).found && (p c).pick_ok && (p c).place_ok)) := by
  constructor
  · have h := auto_sort_loop_spec o k fuel 0 0
      (by simpa using h1) (by simpa using h2) hf
    simpa using h
  · intro p
    rw [run_pass_eq]
    rfl

/-- Witness for C9: under `sortOracle` the loop stops at cycle `1` having
sorted all `3` objects of cycle `0`. -/
theorem auto_sort_terminates_witness :
    auto_sort_all_objects 2 sortOracle = some (1, 3) := by
  have h := (auto_sort_terminates sortOracle 2 1
    (by intro j hj; interval_cases j; rfl) (by rfl) (by norm_num)).1
  rw [h]
  decide

end CartesianRobot
